import Mathlib

/-!
Shallow embedding of the library-management program in `src/main.py`
(classes `Book` and `Library`), together with proofs about the claims of
its specification.

Modelling conventions:
* Python strings are `List Char` (`Str` below); Python `int` is `Int`.
* Python's dynamic typing at validation sites is captured by the `PyVal`
  type of run-time values; `isinstance(x, str)` / `isinstance(x, int)`
  become `isPyStr` / `isPyInt`.  Python's `bool` is a subclass of `int`,
  so `isPyInt` accepts `vBool`, which is modelled by its integer value.
* Exceptions are modelled with `Except`; a fallible method of `Library`
  returns `Except (PyErr × Library) …` where the error component carries
  the state of the object at the moment the exception is raised, so that
  partial in-place mutation before a raise is observable.
* Files are modelled by their textual content (`Str`) for the delimited
  format and by the parsed JSON value (`PyVal`) for the JSON format;
  `json.dump`/`json.load` round-trip JSON values exactly, so the JSON
  codec is embedded at the value level.  A file system is a partial map
  from names to contents; `open` of an absent name is `fileNotFound`.
-/

/-- Python strings, modelled as lists of characters. -/
abbrev Str := List Char

/-- Python run-time values, as far as the program inspects them:
strings, integers, booleans (a subclass of `int` in Python), `None`,
lists and dictionaries (the shapes produced by `json.load`). -/
inductive PyVal where
  | vInt (n : Int)
  | vStr (s : Str)
  | vBool (b : Bool)
  | vNone
  | vList (xs : List PyVal)
  | vDict (fields : List (Str × PyVal))

/-- The exception classes the program can raise: `ValueError` (used by the
source both for validation failures and for the impossible-status internal
error), `KeyError`, `IndexError`, `TypeError`, `FileNotFoundError`. -/
inductive PyErr where
  | valueError
  | keyError
  | indexError
  | typeError
  | fileNotFound
deriving DecidableEq

/-- `isinstance(v, str)`. -/
def isPyStr : PyVal → Bool
  | .vStr _ => true
  | _ => false

/-- `isinstance(v, int)` — true for Python `bool` as well. -/
def isPyInt : PyVal → Bool
  | .vInt _ => true
  | .vBool _ => true
  | _ => false

/-- The integer value of a Python value that passes `isinstance(v, int)`
(`True`/`False` count as `1`/`0`). -/
def pyAsInt : PyVal → Option Int
  | .vInt n => some n
  | .vBool b => some (if b then 1 else 0)
  | _ => none

/-- ASCII decimal digit test on a character (`'0'` to `'9'`). -/
def isDigitChar (c : Char) : Bool := decide (48 ≤ c.toNat ∧ c.toNat ≤ 57)

/-- Python `str.isdigit()`: true iff the string is nonempty and every
character is a digit (restricted to ASCII digits in this model). -/
def strIsDigit (cs : Str) : Bool := !cs.isEmpty && cs.all isDigitChar

/-- `v` is a string whose `isdigit()` is true (the author check). -/
def asStrDigit : PyVal → Bool
  | .vStr s => strIsDigit s
  | _ => false

/-- `Book.STATUS_YES`, the "available" status string. -/
def STATUS_YES : Str := "в наличии".data

/-- `Book.STATUS_NO`, the "checked out" status string. -/
def STATUS_NO : Str := "выдана".data

/-- A `Book` object after its fields have passed the property setters:
`title`/`author` are strings, `year` an integer, `_id` an optional
integer and `_status` an optional string. -/
structure Book where
  title : Str
  author : Str
  year : Int
  id : Option Int
  status : Option Str
deriving DecidableEq

/-- `Book.__init__(title, author, year)`: runs the three property setters,
raising `ValueError` if the title is not a string, the author is not a
string, the author consists solely of digits, or the year is not an
integer; `_id` and `_status` start out `None`. -/
def Book.construct (title author year : PyVal) : Except PyErr Book :=
  match title with
  | .vStr t =>
    match author with
    | .vStr a =>
      if strIsDigit a then .error .valueError
      else
        match pyAsInt year with
        | some y => .ok { title := t, author := a, year := y, id := none, status := none }
        | none => .error .valueError
    | _ => .error .valueError
  | _ => .error .valueError

/-- The `id` property setter applied to a run-time value: `None` or an
integer is accepted, anything else raises `ValueError`. -/
def setIdVal : PyVal → Except PyErr (Option Int)
  | .vNone => .ok none
  | .vInt n => .ok (some n)
  | .vBool b => .ok (some (if b then 1 else 0))
  | _ => .error .valueError

/-- The `status` property setter applied to a run-time value: `None`,
`STATUS_YES` or `STATUS_NO` is accepted, anything else raises
`ValueError`. -/
def setStatusVal : PyVal → Except PyErr (Option Str)
  | .vNone => .ok none
  | .vStr s =>
      if s = STATUS_YES ∨ s = STATUS_NO then .ok (some s) else .error .valueError
  | _ => .error .valueError

/-- The `Library` object: the list `books` and the counter `next_id`.
(`next_id` is stored unvalidated in Python; every state reachable by the
claims keeps it an integer, so it is typed `Int` here.) -/
structure Library where
  books : List Book
  next_id : Int
deriving DecidableEq

/-- `Library.__init__`: empty book list, `next_id = 1`. -/
def Library.init : Library := { books := [], next_id := 1 }

/-- `Library.add_book(title, author, year)`: constructs a `Book` (which can
raise `ValueError`, in which case `self` is untouched), then assigns
`book.id = self.next_id` and `book.status = Book.STATUS_YES` (both setter
calls always succeed: `next_id` is an integer and `STATUS_YES` is a valid
status), appends the book and increments `next_id`.  Returns the new state
together with the returned `Book`. -/
def Library.add_book (lib : Library) (title author year : PyVal) :
    Except (PyErr × Library) (Library × Book) :=
  match Book.construct title author year with
  | .error e => .error (e, lib)
  | .ok b0 =>
      let b := { b0 with id := some lib.next_id, status := some STATUS_YES }
      .ok ({ books := lib.books ++ [b], next_id := lib.next_id + 1 }, b)

/-- `Library.remove_book(book_id)`: keeps the books whose `id` differs from
`book_id` and reports whether the list shrank. -/
def Library.remove_book (lib : Library) (book_id : Int) : Library × Bool :=
  let kept := lib.books.filter (fun b => b.id ≠ some book_id)
  ({ lib with books := kept }, decide (kept.length < lib.books.length))

/-- The matching predicate of `Library.find_books`: every supplied
(non-`None`) criterion must equal the corresponding field. -/
def matchBook (title author : Option Str) (year : Option Int) (b : Book) : Bool :=
  (match title with | none => true | some t => b.title = t) &&
  (match author with | none => true | some a => b.author = a) &&
  (match year with | none => true | some y => b.year = y)

/-- `Library.find_books(title, author, year)`: iterates over `books` in
order, appending each matching book to the result list. -/
def Library.find_books (lib : Library) (title author : Option Str) (year : Option Int) :
    List Book :=
  lib.books.foldl (fun result b => if matchBook title author year b then result ++ [b] else result) []

/-- The loop body of `Library.change_status`: walks the book list looking
for the first book with the given id; flips its status between
`STATUS_YES` and `STATUS_NO`, raising `ValueError` if the status is
neither; returns `false` when no book matches. -/
def changeStatusAux : List Book → Int → Except PyErr (List Book × Bool)
  | [], _ => .ok ([], false)
  | b :: rest, bid =>
      if b.id = some bid then
        if b.status = some STATUS_YES then
          .ok ({ b with status := some STATUS_NO } :: rest, true)
        else if b.status = some STATUS_NO then
          .ok ({ b with status := some STATUS_YES } :: rest, true)
        else
          .error .valueError
      else
        match changeStatusAux rest bid with
        | .error e => .error e
        | .ok (rest2, found) => .ok (b :: rest2, found)

/-- `Library.change_status(book_id)`.  When the matching book's status is
invalid the raise happens before any mutation, so the error state is the
unchanged library. -/
def Library.change_status (lib : Library) (book_id : Int) :
    Except (PyErr × Library) (Library × Bool) :=
  match changeStatusAux lib.books book_id with
  | .error e => .error (e, lib)
  | .ok (bs, found) => .ok ({ lib with books := bs }, found)

/-! ### Integer and string primitives used by the codecs -/

/-- The decimal digit character of a digit value (`str` of one digit). -/
def digitToChar : Nat → Char
  | 0 => '0' | 1 => '1' | 2 => '2' | 3 => '3' | 4 => '4'
  | 5 => '5' | 6 => '6' | 7 => '7' | 8 => '8' | _ => '9'

/-- The digit value of a digit character. -/
def digitVal (c : Char) : Nat := c.toNat - 48

/-- The numeric value of a string of decimal digits, most significant
first (the accumulator form used by integer parsing). -/
def chVal (cs : Str) : Nat := cs.foldl (fun a c => 10 * a + digitVal c) 0

/-- The digit-extraction loop of decimal rendering, with explicit fuel so
that it is structurally recursive (and hence computable by the kernel);
`fuel = n` always suffices. -/
def natToCharsAux : Nat → Nat → Str
  | 0, _ => []
  | fuel + 1, n =>
      if n = 0 then [] else natToCharsAux fuel (n / 10) ++ [digitToChar (n % 10)]

/-- Python `str(n)` for a natural number. -/
def natToChars (n : Nat) : Str :=
  if n = 0 then ['0'] else natToCharsAux n n

/-- Python `str(n)` for an integer (f-string interpolation of an `int`). -/
def intToChars : Int → Str
  | .ofNat n => natToChars n
  | .negSucc m => '-' :: natToChars (m + 1)

/-- Python whitespace characters stripped by `str.strip()` (the ASCII
ones; the program only ever produces these). -/
def isWSChar (c : Char) : Bool :=
  decide (c.toNat = 32 ∨ c.toNat = 9 ∨ c.toNat = 10 ∨ c.toNat = 13 ∨ c.toNat = 11 ∨ c.toNat = 12)

/-- Python `str.strip()`: drop leading and trailing whitespace. -/
def stripChars (cs : Str) : Str :=
  ((cs.dropWhile isWSChar).reverse.dropWhile isWSChar).reverse

/-- A nonempty all-digit string parsed as a natural number; `none`
otherwise. -/
def parseDigits (cs : Str) : Option Nat :=
  if !cs.isEmpty && cs.all isDigitChar then some (chVal cs) else none

/-- Python `int(s)` on an already-stripped string: an optional single
sign followed by a nonempty run of digits.  (Underscore digit separators,
a Python corner case the program never produces, are not modelled.) -/
def pyIntNoStrip : Str → Option Int
  | [] => none
  | c :: rest =>
      if c = '-' then (parseDigits rest).map (fun n => -(n : Int))
      else if c = '+' then (parseDigits rest).map (fun n => (n : Int))
      else (parseDigits (c :: rest)).map (fun n => (n : Int))

/-- Python `int(s)` on a string: surrounding whitespace is ignored. -/
def pyIntOfChars (s : Str) : Option Int := pyIntNoStrip (stripChars s)

/-- Python `s.split(sep)` for a one-character separator. -/
def splitChar (sep : Char) : Str → List Str
  | [] => [[]]
  | c :: rest =>
      match splitChar sep rest with
      | [] => [[]]
      | s :: ss => if c = sep then [] :: s :: ss else (c :: s) :: ss

/-- Drop the final empty piece that `split` produces when the text ends
with a newline (so the result matches what `readlines` yields, up to the
line terminators that the subsequent `strip()` removes anyway). -/
def dropTrailingEmpty (ls : List Str) : List Str :=
  match ls.getLast? with
  | some [] => ls.dropLast
  | _ => ls

/-- Python `f.readlines()` (with the line content as seen after the
subsequent `strip()`, so line terminators are immaterial): the file text
split at newlines, without a final empty line when the file ends with a
newline. -/
def pyReadlines (content : Str) : List Str :=
  dropTrailingEmpty (splitChar '\n' content)

/-- Python list indexing `xs[i]`: `IndexError` when out of range. -/
def pyIndex (xs : List α) (i : Nat) : Except PyErr α :=
  match xs.get? i with
  | some x => .ok x
  | none => .error .indexError

/-- Python `int(s)` as an exception-raising operation (`ValueError`). -/
def pyIntExc (s : Str) : Except PyErr Int :=
  match pyIntOfChars s with
  | some n => .ok n
  | none => .error .valueError

/-! ### The delimited-line codec (`save_to_text` / `load_from_text`) -/

/-- f-string rendering of an optional integer field (Python prints the
value `None` as the text `None`). -/
def pyShowOptInt : Option Int → Str
  | none => "None".data
  | some n => intToChars n

/-- f-string rendering of an optional string field. -/
def pyShowOptStr : Option Str → Str
  | none => "None".data
  | some s => s

/-- The line `f"{book.id}|{book.title}|{book.author}|{book.year}|{book.status}"`. -/
def Book.toLine (b : Book) : Str :=
  pyShowOptInt b.id ++ '|' :: b.title ++ '|' :: b.author ++ '|' :: intToChars b.year
    ++ '|' :: pyShowOptStr b.status

/-- Lines joined with a terminating newline after each. -/
def joinLines : List Str → Str
  | [] => []
  | l :: ls => l ++ '\n' :: joinLines ls

/-- `Library.save_to_text`: the content written to the file — the
`next_id` line followed by one line per book. -/
def Library.save_to_text_content (lib : Library) : Str :=
  intToChars lib.next_id ++ '\n' :: joinLines (lib.books.map Book.toLine)

/-- One iteration of the `load_from_text` loop: split the stripped line at
pipes and rebuild the book, with the source's evaluation order of the
fallible steps (`parts[1]`, `parts[2]`, `parts[3]`, `int(parts[3])`,
the author validation in `Book.__init__`, `int(parts[0])`, `parts[4]`,
the status setter). -/
def parseBookLine (line : Str) : Except PyErr Book :=
  let parts := splitChar '|' (stripChars line)
  match pyIndex parts 1 with
  | .error e => .error e
  | .ok p1 =>
  match pyIndex parts 2 with
  | .error e => .error e
  | .ok p2 =>
  match pyIndex parts 3 with
  | .error e => .error e
  | .ok p3 =>
  match pyIntExc p3 with
  | .error e => .error e
  | .ok y =>
  if strIsDigit p2 then .error .valueError
  else
  match pyIndex parts 0 with
  | .error e => .error e
  | .ok p0 =>
  match pyIntExc p0 with
  | .error e => .error e
  | .ok i =>
  match pyIndex parts 4 with
  | .error e => .error e
  | .ok p4 =>
  if p4 = STATUS_YES ∨ p4 = STATUS_NO then
    .ok { title := p1, author := p2, year := y, id := some i, status := some p4 }
  else .error .valueError

/-- The book-loading loop of `load_from_text`: each parsed book is
appended to `self.books` in turn, so a failure leaves the books parsed so
far (and the already-assigned `next_id`) in place. -/
def loadBooksAux (nid : Int) : List Book → List Str → Except (PyErr × Library) Library
  | acc, [] => .ok { books := acc, next_id := nid }
  | acc, l :: rest =>
      match parseBookLine l with
      | .error e => .error (e, { books := acc, next_id := nid })
      | .ok b => loadBooksAux nid (acc ++ [b]) rest

/-- `Library.load_from_text`, given the file content: assigns
`self.next_id = int(lines[0].strip())`, resets `self.books = []`, then
parses the remaining lines one by one.  The error component is the state
of the library at the moment of the raise. -/
def Library.load_from_text (lib : Library) (content : Str) :
    Except (PyErr × Library) Library :=
  match pyReadlines content with
  | [] => .error (.indexError, lib)
  | l0 :: rest =>
      match pyIntExc (stripChars l0) with
      | .error e => .error (e, lib)
      | .ok nid => loadBooksAux nid [] rest

/-- `Library.load_from_text` at the file-system level: the file
`filename + ".txt"` is looked up first; a missing file raises
`FileNotFoundError` before anything is read. -/
def Library.load_from_text_fs (lib : Library) (fs : Str → Option Str) (filename : Str) :
    Except (PyErr × Library) Library :=
  match fs (filename ++ ".txt".data) with
  | none => .error (.fileNotFound, lib)
  | some content => lib.load_from_text content

/-! ### The JSON codec (`save_to_json` / `load_from_json`) -/

/-- `to_dict` rendering of the optional `_id` field. -/
def optIntVal : Option Int → PyVal
  | none => .vNone
  | some n => .vInt n

/-- `to_dict` rendering of the optional `_status` field. -/
def optStrVal : Option Str → PyVal
  | none => .vNone
  | some s => .vStr s

/-- `Book.to_dict`. -/
def Book.to_dict (b : Book) : PyVal :=
  .vDict [("id".data, optIntVal b.id), ("title".data, .vStr b.title),
          ("author".data, .vStr b.author), ("year".data, .vInt b.year),
          ("status".data, optStrVal b.status)]

/-- Dictionary key lookup (keys produced by `json.load` are unique, so
first-match lookup coincides with Python dict access). -/
def lookupKey (k : Str) : List (Str × PyVal) → Option PyVal
  | [] => none
  | (k1, v) :: rest => if k1 = k then some v else lookupKey k rest

/-- Python `data[key]`: `KeyError` on a missing key, `TypeError` when the
value is not a dictionary. -/
def dictGet (v : PyVal) (key : Str) : Except PyErr PyVal :=
  match v with
  | .vDict fields =>
      match lookupKey key fields with
      | some x => .ok x
      | none => .error .keyError
  | _ => .error .typeError

/-- `Book.from_dict(data)`: reads `title`, `author`, `year`, runs the
constructor validation, then sets `id` and `status` through the property
setters, in the source's order of fallible steps. -/
def Book.from_dict (data : PyVal) : Except PyErr Book :=
  match dictGet data "title".data with
  | .error e => .error e
  | .ok tv =>
  match dictGet data "author".data with
  | .error e => .error e
  | .ok av =>
  match dictGet data "year".data with
  | .error e => .error e
  | .ok yv =>
  match Book.construct tv av yv with
  | .error e => .error e
  | .ok b0 =>
  match dictGet data "id".data with
  | .error e => .error e
  | .ok iv =>
  match setIdVal iv with
  | .error e => .error e
  | .ok bid =>
  match dictGet data "status".data with
  | .error e => .error e
  | .ok sv =>
  match setStatusVal sv with
  | .error e => .error e
  | .ok bst => .ok { b0 with id := bid, status := bst }

/-- `Library.save_to_json`: the JSON value written (the text encoding of
`json.dump` is invertible on JSON values, so the file is modelled by the
value). -/
def Library.save_to_json (lib : Library) : PyVal :=
  .vDict [("next_id".data, .vInt lib.next_id),
          ("books".data, .vList (lib.books.map Book.to_dict))]

/-- The list comprehension `[Book.from_dict(b) for b in data['books']]`:
evaluated in full before being assigned, so a failure anywhere leaves
`self.books` untouched. -/
def booksFromDicts : List PyVal → Except PyErr (List Book)
  | [] => .ok []
  | d :: ds =>
      match Book.from_dict d with
      | .error e => .error e
      | .ok b =>
          match booksFromDicts ds with
          | .error e => .error e
          | .ok bs => .ok (b :: bs)

/-- `Library.load_from_json`, given the parsed file value: assigns
`self.next_id = data['next_id']` first (Python stores the value
unvalidated; a non-integer here would put the object outside every state
the claims quantify over, so the model requires an integer), then
rebuilds the book list, which replaces `self.books` only on full
success — but `next_id` has already been overwritten by then. -/
def Library.load_from_json (lib : Library) (data : PyVal) :
    Except (PyErr × Library) Library :=
  match dictGet data "next_id".data with
  | .error e => .error (e, lib)
  | .ok nv =>
      match pyAsInt nv with
      | none => .error (.valueError, lib)
      | some nid =>
          match dictGet data "books".data with
          | .error e => .error (e, { lib with next_id := nid })
          | .ok bv =>
              match bv with
              | .vList items =>
                  match booksFromDicts items with
                  | .error e => .error (e, { lib with next_id := nid })
                  | .ok bs => .ok { books := bs, next_id := nid }
              | _ => .error (.typeError, { lib with next_id := nid })

/-- `Library.load_from_json` at the file-system level: the file
`filename + ".json"` is looked up first; a missing file raises
`FileNotFoundError` before anything is read. -/
def Library.load_from_json_fs (lib : Library) (fs : Str → Option PyVal) (filename : Str) :
    Except (PyErr × Library) Library :=
  match fs (filename ++ ".json".data) with
  | none => .error (.fileNotFound, lib)
  | some data => lib.load_from_json data

/-- Equality of `Except` results is decidable when both components are,
so concrete runs of the embedded operations can be checked by `decide`. -/
instance [DecidableEq ε] [DecidableEq α] : DecidableEq (Except ε α) := fun x y =>
  match x, y with
  | .error a, .error b =>
      if h : a = b then isTrue (by rw [h])
      else isFalse (by intro hc; cases hc; exact h rfl)
  | .ok a, .ok b =>
      if h : a = b then isTrue (by rw [h])
      else isFalse (by intro hc; cases hc; exact h rfl)
  | .error _, .ok _ => isFalse (by intro hc; cases hc)
  | .ok _, .error _ => isFalse (by intro hc; cases hc)

/-! ### The catalog invariant (claim C5) -/

/-- An id slot that is set and below the bound `n`. -/
def idBelow (n : Int) : Option Int → Prop
  | some i => i < n
  | none => False

instance : (n : Int) → (o : Option Int) → Decidable (idBelow n o)
  | n, some i => inferInstanceAs (Decidable (i < n))
  | _, none => inferInstanceAs (Decidable False)

/-- The spec's catalog invariant: every book has an id, all ids are
strictly below `next_id`, and no two books share an id. -/
def catalogInvariant (lib : Library) : Prop :=
  (∀ b ∈ lib.books, idBelow lib.next_id b.id) ∧ (lib.books.map Book.id).Nodup

instance (lib : Library) : Decidable (catalogInvariant lib) := by
  unfold catalogInvariant
  infer_instance

/-- The two status strings differ. -/
theorem sNO_ne_sYES : STATUS_NO ≠ STATUS_YES := by decide

/-- The two status strings differ (other orientation). -/
theorem sYES_ne_sNO : STATUS_YES ≠ STATUS_NO := by decide

/-! ### Helper lemmas about the operations -/

/-- `add_book` on inputs passing validation: the exact resulting state and
returned book. -/
theorem add_book_ok (lib : Library) (t a : Str) (y : Int) (h : strIsDigit a = false) :
    lib.add_book (.vStr t) (.vStr a) (.vInt y) =
      .ok ({ books := lib.books ++
               [{ title := t, author := a, year := y,
                  id := some lib.next_id, status := some STATUS_YES }],
             next_id := lib.next_id + 1 },
           { title := t, author := a, year := y,
             id := some lib.next_id, status := some STATUS_YES }) := by
  simp [Library.add_book, Book.construct, h, pyAsInt]

/-- A failing construction makes `add_book` fail with the library
untouched. -/
theorem add_book_error (lib : Library) (title author year : PyVal) (e : PyErr)
    (h : Book.construct title author year = .error e) :
    lib.add_book title author year = .error (e, lib) := by
  simp [Library.add_book, h]

/-- The four validation failure conditions each make `Book.construct`
raise `ValueError`. -/
theorem construct_error (title author year : PyVal)
    (h : isPyStr title = false ∨ isPyStr author = false ∨
         asStrDigit author = true ∨ isPyInt year = false) :
    Book.construct title author year = .error .valueError := by
  rcases h with h | h | h | h
  · cases title <;> first | rfl | simp [isPyStr] at h
  · cases title <;> try rfl
    cases author <;> first | rfl | simp [isPyStr] at h
  · cases author <;> simp [asStrDigit] at h
    cases title <;> try rfl
    simp [Book.construct, h]
  · cases title <;> try rfl
    cases author <;> try rfl
    rename_i t a
    by_cases hd : strIsDigit a
    · simp [Book.construct, hd]
    · cases year with
      | vInt n => simp [isPyInt] at h
      | vBool b => simp [isPyInt] at h
      | vStr s => simp [Book.construct, hd, pyAsInt]
      | vNone => simp [Book.construct, hd, pyAsInt]
      | vList xs => simp [Book.construct, hd, pyAsInt]
      | vDict fs => simp [Book.construct, hd, pyAsInt]

/-! ### Claim C3 -/

/-- C3: for every catalog state and every valid input (string title,
string author that is not all digits, integer year), `add_book` succeeds;
the returned record has `id` equal to the catalog's `next_id` before the
call and status `STATUS_YES`; the record is appended at the end of
`books`; and `next_id` is incremented by one. -/
theorem claim_C3_add_valid (lib : Library) (t a : Str) (y : Int)
    (h : strIsDigit a = false) :
    lib.add_book (.vStr t) (.vStr a) (.vInt y) =
      .ok ({ books := lib.books ++
               [{ title := t, author := a, year := y,
                  id := some lib.next_id, status := some STATUS_YES }],
             next_id := lib.next_id + 1 },
           { title := t, author := a, year := y,
             id := some lib.next_id, status := some STATUS_YES }) :=
  add_book_ok lib t a y h

/-- C3 witness: a concrete valid add on a concrete catalog. -/
theorem claim_C3_witness :
    Library.init.add_book (.vStr "Dune".data) (.vStr "Frank Herbert".data) (.vInt 1965) =
      .ok ({ books := [{ title := "Dune".data, author := "Frank Herbert".data, year := 1965,
                         id := some 1, status := some STATUS_YES }],
             next_id := 2 },
           { title := "Dune".data, author := "Frank Herbert".data, year := 1965,
             id := some 1, status := some STATUS_YES }) :=
  claim_C3_add_valid Library.init "Dune".data "Frank Herbert".data 1965 (by decide)

/-! ### Claim C4 -/

/-- C4: for every catalog state and every input on which the `Book`
construction fails validation (non-string title, non-string author,
all-digit author, or non-integer year), `add_book` propagates the
`ValueError` and leaves the library — `books` and `next_id` — unchanged
(the error carries the state at the raise, which is the input state). -/
theorem claim_C4_add_invalid (lib : Library) (title author year : PyVal)
    (h : isPyStr title = false ∨ isPyStr author = false ∨
         asStrDigit author = true ∨ isPyInt year = false) :
    lib.add_book title author year = .error (.valueError, lib) :=
  add_book_error lib title author year .valueError (construct_error title author year h)

/-- C4 witness: a concrete invalid add (all-digit author) fails and
leaves a concrete nonempty catalog unchanged. -/
theorem claim_C4_witness :
    Library.add_book
        (Library.mk [{ title := "t".data, author := "a".data, year := 1999,
                       id := some 1, status := some STATUS_YES }] 2)
        (.vStr "u".data) (.vStr "1234".data) (.vInt 5) =
      .error (.valueError, Library.mk [{ title := "t".data, author := "a".data, year := 1999,
                                         id := some 1, status := some STATUS_YES }] 2) :=
  claim_C4_add_invalid _ _ _ _ (Or.inr (Or.inr (Or.inl (by decide))))

/-! ### Claim C7 -/

/-- The accumulating loop of `find_books` is a filter. -/
theorem foldl_filter_append (p : Book → Bool) (bs acc : List Book) :
    bs.foldl (fun r b => if p b then r ++ [b] else r) acc = acc ++ bs.filter p := by
  induction bs generalizing acc with
  | nil => simp
  | cons b rest ih => by_cases h : p b <;> simp [List.filter_cons, h, ih]

/-- C7: `find_books` with no criteria returns the full book list in
insertion order, and with any combination of criteria returns exactly the
order-preserving subsequence of books matching every supplied
criterion. -/
theorem claim_C7_find_books (lib : Library) (ot oa : Option Str) (oy : Option Int) :
    lib.find_books none none none = lib.books ∧
    lib.find_books ot oa oy = lib.books.filter (matchBook ot oa oy) := by
  refine ⟨?_, ?_⟩
  · have h1 := foldl_filter_append (matchBook none none none) lib.books []
    simp only [Library.find_books]
    rw [h1]
    simp [matchBook]
  · simpa [Library.find_books] using foldl_filter_append (matchBook ot oa oy) lib.books []

/-! ### Claim C10 -/

/-- C10: the all-digit author check does not reject the empty string —
`Book` construction with author `""` succeeds for every string title and
integer year, so `add_book` admits a record with an empty author. -/
theorem claim_C10_empty_author (lib : Library) (t : Str) (y : Int) :
    Book.construct (.vStr t) (.vStr []) (.vInt y) =
      .ok { title := t, author := [], year := y, id := none, status := none } ∧
    lib.add_book (.vStr t) (.vStr []) (.vInt y) =
      .ok ({ books := lib.books ++
               [{ title := t, author := [], year := y,
                  id := some lib.next_id, status := some STATUS_YES }],
             next_id := lib.next_id + 1 },
           { title := t, author := [], year := y,
             id := some lib.next_id, status := some STATUS_YES }) :=
  ⟨rfl, add_book_ok lib t [] y rfl⟩

/-! ### Claim C1 -/

/-- C1 evaluation: `load_from_text` is not atomic on failure.  On a
catalog holding one book with `next_id = 2`, loading the malformed
content `"7\nbad"` fails (the second line has no pipe-separated fields,
an `IndexError` at `parts[1]`), yet the failed call has already set
`next_id` to `7` and cleared `books` — the prior state is not restored.
This contradicts the claim (and the spec's atomicity requirement), so the
code, not the claim, is at fault. -/
theorem claim_C1_load_not_atomic :
    Library.load_from_text
        (Library.mk [{ title := "t".data, author := "a".data, year := 1999,
                       id := some 1, status := some STATUS_YES }] 2)
        "7\nbad".data =
      .error (.indexError, Library.mk [] 7) ∧
    Library.mk [] 7 ≠
      Library.mk [{ title := "t".data, author := "a".data, year := 1999,
                    id := some 1, status := some STATUS_YES }] 2 :=
  ⟨by decide, by decide⟩

/-! ### Claim C8 -/

/-- Toggling the status twice through the `change_status` loop restores
the book list exactly. -/
theorem changeStatusAux_invol :
    ∀ (bs : List Book) (bid : Int) (bs2 : List Book),
      changeStatusAux bs bid = .ok (bs2, true) → changeStatusAux bs2 bid = .ok (bs, true) := by
  intro bs
  induction bs with
  | nil => intro bid bs2 h; simp [changeStatusAux] at h
  | cons b rest ih =>
    intro bid bs2 h
    by_cases hid : b.id = some bid
    · by_cases hy : b.status = some STATUS_YES
      · simp only [changeStatusAux, hid, hy, if_true, if_pos] at h
        rw [Except.ok.injEq, Prod.mk.injEq] at h
        obtain ⟨h1, -⟩ := h
        subst h1
        have hno : ({ b with status := some STATUS_NO } : Book).status = some STATUS_YES ↔ False := by
          simp [STATUS_NO, STATUS_YES]
        simp [changeStatusAux, hid, hno]
        cases b
        simp_all
      · by_cases hn : b.status = some STATUS_NO
        · simp only [changeStatusAux, hid, hy, hn, if_true, if_false, if_pos, if_neg,
                     sNO_ne_sYES] at h
          rw [if_neg (by simp [sNO_ne_sYES]), Except.ok.injEq, Prod.mk.injEq] at h
          obtain ⟨h1, -⟩ := h
          subst h1
          simp [changeStatusAux, hid, sNO_ne_sYES]
          cases b
          simp_all
        · simp [changeStatusAux, hid, hy, hn] at h
    · rcases hrec : changeStatusAux rest bid with e | ⟨rest2, found⟩
      · simp [changeStatusAux, hid, hrec] at h
      · simp only [changeStatusAux, hid, hrec, if_neg, if_false] at h
        rw [Except.ok.injEq, Prod.mk.injEq] at h
        obtain ⟨h1, h2⟩ := h
        subst h1
        subst h2
        have := ih bid rest2 hrec
        simp [changeStatusAux, hid, this]

/-- When no book has the requested id the loop returns `false` and the
list unchanged. -/
theorem changeStatusAux_absent (bid : Int) :
    ∀ bs : List Book, (∀ b ∈ bs, b.id ≠ some bid) →
      changeStatusAux bs bid = .ok (bs, false) := by
  intro bs
  induction bs with
  | nil => intro _; rfl
  | cons b rest ih =>
    intro h
    have hb : b.id ≠ some bid := h b (by simp)
    have hr := ih (fun x hx => h x (by simp [hx]))
    simp [changeStatusAux, hb, hr]

/-- C8: a successful status toggle is undone exactly by a second toggle of
the same id — the second call returns the original library and `true` —
and toggling an id that no book carries returns `false` with the whole
state (books, statuses, `next_id`) unchanged. -/
theorem claim_C8_toggle :
    (∀ (lib : Library) (bid : Int) (lib1 : Library),
        lib.change_status bid = .ok (lib1, true) →
        lib1.change_status bid = .ok (lib, true)) ∧
    (∀ (lib : Library) (bid : Int), (∀ b ∈ lib.books, b.id ≠ some bid) →
        lib.change_status bid = .ok (lib, false)) := by
  constructor
  · intro lib bid lib1 h
    rcases haux : changeStatusAux lib.books bid with e | ⟨bs, found⟩
    · simp [Library.change_status, haux] at h
    · simp only [Library.change_status, haux] at h
      rw [Except.ok.injEq, Prod.mk.injEq] at h
      obtain ⟨h1, h2⟩ := h
      subst h2
      have h3 := changeStatusAux_invol lib.books bid bs haux
      rw [← h1]
      simp [Library.change_status, h3]
  · intro lib bid h
    simp [Library.change_status, changeStatusAux_absent bid lib.books h]

/-- C8 witness: toggling id 1 twice on a concrete one-book catalog
returns the original catalog, applying the toggle-twice part at the
concrete intermediate state. -/
theorem claim_C8_witness :
    Library.change_status
        (Library.mk [{ title := "t".data, author := "a".data, year := 1999,
                       id := some 1, status := some STATUS_NO }] 2) 1 =
      .ok (Library.mk [{ title := "t".data, author := "a".data, year := 1999,
                         id := some 1, status := some STATUS_YES }] 2, true) :=
  claim_C8_toggle.1
    (Library.mk [{ title := "t".data, author := "a".data, year := 1999,
                   id := some 1, status := some STATUS_YES }] 2) 1
    (Library.mk [{ title := "t".data, author := "a".data, year := 1999,
                   id := some 1, status := some STATUS_NO }] 2)
    (by decide)

/-! ### Claim C9 -/

/-- C9: deserializing from a path that names no existing resource fails
with `FileNotFoundError` in both formats, before anything is read, so the
error carries the unchanged prior state; and this error is a different
exception class from `ValueError` (which the source uses both for
validation failures and for the invariant violation in
`change_status`). -/
theorem claim_C9_missing_file :
    (∀ (lib : Library) (fs : Str → Option Str) (name : Str),
        fs (name ++ ".txt".data) = none →
        lib.load_from_text_fs fs name = .error (.fileNotFound, lib)) ∧
    (∀ (lib : Library) (fs : Str → Option PyVal) (name : Str),
        fs (name ++ ".json".data) = none →
        lib.load_from_json_fs fs name = .error (.fileNotFound, lib)) ∧
    PyErr.fileNotFound ≠ PyErr.valueError := by
  refine ⟨?_, ?_, by decide⟩
  · intro lib fs name h
    simp [Library.load_from_text_fs, h]
  · intro lib fs name h
    simp [Library.load_from_json_fs, h]

/-- C9 witness: loading from an empty file system fails with
`fileNotFound` and the concrete prior state intact. -/
theorem claim_C9_witness :
    Library.load_from_text_fs (Library.mk [] 5) (fun _ => none) "data".data =
      .error (.fileNotFound, Library.mk [] 5) :=
  claim_C9_missing_file.1 (Library.mk [] 5) (fun _ => none) "data".data rfl

/-! ### Claim C5 -/

/-- C5 counterexample: `load_from_text` accepts an input whose stored id
is not below the stored `next_id`, producing a state that violates the
invariant — so the invariant is not preserved by every accepted
deserialize input. -/
theorem claim_C5_load_breaks_invariant :
    Library.load_from_text Library.init "1\n5|t|a|2|в наличии".data =
      .ok (Library.mk [{ title := "t".data, author := "a".data, year := 2,
                         id := some 5, status := some STATUS_YES }] 1) ∧
    ¬ catalogInvariant
        (Library.mk [{ title := "t".data, author := "a".data, year := 2,
                       id := some 5, status := some STATUS_YES }] 1) :=
  ⟨by decide, by decide⟩

/-- The book list after a successful `change_status` carries the same ids
in the same order. -/
theorem changeStatusAux_ok_map_id :
    ∀ (bs : List Book) (bid : Int) (bs2 : List Book) (f : Bool),
      changeStatusAux bs bid = .ok (bs2, f) → bs2.map Book.id = bs.map Book.id := by
  intro bs
  induction bs with
  | nil =>
    intro bid bs2 f h
    simp [changeStatusAux] at h
    simp [h.1]
  | cons b rest ih =>
    intro bid bs2 f h
    by_cases hid : b.id = some bid
    · by_cases hy : b.status = some STATUS_YES
      · simp only [changeStatusAux, hid, hy, if_true, if_pos] at h
        rw [Except.ok.injEq, Prod.mk.injEq] at h
        obtain ⟨h1, -⟩ := h
        subst h1
        simp [hid]
      · by_cases hn : b.status = some STATUS_NO
        · simp only [changeStatusAux, hid, hy, hn, if_true, if_false, if_pos, if_neg] at h
          rw [if_neg (by simp [sNO_ne_sYES]), Except.ok.injEq, Prod.mk.injEq] at h
          obtain ⟨h1, -⟩ := h
          subst h1
          simp [hid]
        · simp [changeStatusAux, hid, hy, hn] at h
    · rcases hrec : changeStatusAux rest bid with e | ⟨rest2, found⟩
      · simp [changeStatusAux, hid, hrec] at h
      · simp only [changeStatusAux, hid, hrec, if_neg, if_false] at h
        rw [Except.ok.injEq, Prod.mk.injEq] at h
        obtain ⟨h1, -⟩ := h
        subst h1
        simp [ih bid rest2 found hrec]

/-- C5, amended: the invariant — every id set, unique, and strictly below
`next_id` — holds of the empty catalog and is preserved by `add_book`,
`remove_book` and `change_status`; the deserialize operations are not
covered, since they install whatever ids their input contains (see the
counterexample). -/
theorem claim_C5_invariant_preserved :
    catalogInvariant Library.init ∧
    (∀ (lib : Library) (title author year : PyVal) (lib2 : Library) (b : Book),
        catalogInvariant lib → lib.add_book title author year = .ok (lib2, b) →
        catalogInvariant lib2) ∧
    (∀ (lib : Library) (bid : Int), catalogInvariant lib →
        catalogInvariant (lib.remove_book bid).1) ∧
    (∀ (lib : Library) (bid : Int) (res : Library × Bool),
        catalogInvariant lib → lib.change_status bid = .ok res →
        catalogInvariant res.1) := by
  refine ⟨by decide, ?_, ?_, ?_⟩
  · intro lib title author year lib2 b hinv hadd
    rcases hc : Book.construct title author year with e | b0
    · simp [Library.add_book, hc] at hadd
    · simp only [Library.add_book, hc] at hadd
      rw [Except.ok.injEq, Prod.mk.injEq] at hadd
      obtain ⟨h1, -⟩ := hadd
      subst h1
      obtain ⟨hbelow, hnd⟩ := hinv
      constructor
      · intro x hx
        simp only [List.mem_append, List.mem_singleton] at hx
        rcases hx with hx | hx
        · have := hbelow x hx
          cases hxid : x.id with
          | none => rw [hxid] at this; exact this.elim
          | some i =>
            rw [hxid] at this
            simp only [idBelow] at this ⊢
            omega
        · subst hx
          simp only [idBelow]
          omega
      · rw [List.map_append]
        simp only [List.map_cons, List.map_nil]
        rw [List.nodup_append]
        refine ⟨hnd, List.nodup_singleton _, ?_⟩
        intro o ho ho2
        simp only [List.mem_singleton] at ho2
        subst ho2
        obtain ⟨x, hx, hxid⟩ := List.mem_map.mp ho
        have := hbelow x hx
        rw [hxid] at this
        simp only [idBelow] at this
        omega
  · intro lib bid hinv
    obtain ⟨hbelow, hnd⟩ := hinv
    constructor
    · intro x hx
      exact hbelow x (List.mem_of_mem_filter hx)
    · exact hnd.sublist ((List.filter_sublist _).map Book.id)
  · intro lib bid res hinv hch
    rcases haux : changeStatusAux lib.books bid with e | ⟨bs, found⟩
    · simp [Library.change_status, haux] at hch
    · simp only [Library.change_status, haux] at hch
      rw [Except.ok.injEq] at hch
      subst hch
      obtain ⟨hbelow, hnd⟩ := hinv
      have hmap := changeStatusAux_ok_map_id lib.books bid bs found haux
      constructor
      · intro x hx
        have hxid : x.id ∈ bs.map Book.id := List.mem_map_of_mem Book.id hx
        rw [hmap] at hxid
        obtain ⟨y, hy, hyid⟩ := List.mem_map.mp hxid
        have := hbelow y hy
        rw [hyid] at this
        exact this
      · simpa [hmap] using hnd

/-- C5 witness: the add-preservation part applied at the empty catalog
and a concrete valid book. -/
theorem claim_C5_witness :
    catalogInvariant
      (Library.mk [{ title := "Dune".data, author := "F H".data, year := 1965,
                     id := some 1, status := some STATUS_YES }] 2) :=
  claim_C5_invariant_preserved.2.1 Library.init
    (.vStr "Dune".data) (.vStr "F H".data) (.vInt 1965)
    (Library.mk [{ title := "Dune".data, author := "F H".data, year := 1965,
                   id := some 1, status := some STATUS_YES }] 2)
    { title := "Dune".data, author := "F H".data, year := 1965,
      id := some 1, status := some STATUS_YES }
    (by decide) (by decide)

/-! ### Digit strings: rendering and parsing are mutually inverse -/

/-- Code point of a rendered digit. -/
theorem digitToChar_toNat (d : Nat) (h : d < 10) : (digitToChar d).toNat = 48 + d := by
  interval_cases d <;> rfl

/-- Parsing a rendered digit recovers its value. -/
theorem digitVal_digitToChar (d : Nat) (h : d < 10) : digitVal (digitToChar d) = d := by
  interval_cases d <;> rfl

/-- Rendered digits are digit characters. -/
theorem isDigitChar_digitToChar (d : Nat) (h : d < 10) : isDigitChar (digitToChar d) = true := by
  interval_cases d <;> rfl

/-- The code-point bounds of a digit character. -/
theorem isDigitChar_bounds (c : Char) (h : isDigitChar c = true) :
    48 ≤ c.toNat ∧ c.toNat ≤ 57 :=
  of_decide_eq_true h

/-- Digit characters are not whitespace. -/
theorem digit_not_ws (c : Char) (h : isDigitChar c = true) : isWSChar c = false := by
  have hb := isDigitChar_bounds c h
  simp only [isWSChar, decide_eq_false_iff_not]
  omega

/-- Characters differ when their code points do. -/
theorem ne_of_toNat_ne {c d : Char} (h : c.toNat ≠ d.toNat) : c ≠ d :=
  fun he => h (he ▸ rfl)

/-- Digit characters are not the pipe delimiter. -/
theorem digit_ne_pipe (c : Char) (h : isDigitChar c = true) : c ≠ '|' := by
  have hb := isDigitChar_bounds c h
  exact ne_of_toNat_ne (by have : ('|').toNat = 124 := rfl; omega)

/-- Digit characters are not a newline. -/
theorem digit_ne_nl (c : Char) (h : isDigitChar c = true) : c ≠ '\n' := by
  have hb := isDigitChar_bounds c h
  exact ne_of_toNat_ne (by have : ('\n').toNat = 10 := rfl; omega)

/-- The fuelled digit loop agrees with `Nat.digits`. -/
theorem natToCharsAux_eq (fuel n : Nat) (h : n ≤ fuel) :
    natToCharsAux fuel n = ((Nat.digits 10 n).map digitToChar).reverse := by
  induction fuel generalizing n with
  | zero =>
    have h0 : n = 0 := Nat.le_zero.mp h
    simp [natToCharsAux, h0]
  | succ fuel ih =>
    by_cases h0 : n = 0
    · simp [natToCharsAux, h0]
    · have hdiv : n / 10 ≤ fuel := by
        have : n / 10 < n := Nat.div_lt_self (Nat.pos_of_ne_zero h0) (by norm_num)
        omega
      rw [show natToCharsAux (fuel + 1) n =
            if n = 0 then [] else natToCharsAux fuel (n / 10) ++ [digitToChar (n % 10)]
          from rfl]
      rw [if_neg h0, ih _ hdiv,
          Nat.digits_def' (by norm_num : (1 : ℕ) < 10) (Nat.pos_of_ne_zero h0)]
      simp

/-- `natToChars` in closed form over `Nat.digits`. -/
theorem natToChars_eq (n : Nat) :
    natToChars n = if n = 0 then ['0'] else ((Nat.digits 10 n).map digitToChar).reverse := by
  unfold natToChars
  by_cases h0 : n = 0
  · simp [h0]
  · simp [h0, natToCharsAux_eq n n le_rfl]

/-- Every character of `natToChars n` is a digit. -/
theorem natToChars_all_digits (n : Nat) : ∀ c ∈ natToChars n, isDigitChar c = true := by
  intro c hc
  rw [natToChars_eq] at hc
  by_cases h0 : n = 0
  · simp [h0] at hc
    subst hc
    rfl
  · simp only [h0, if_false, List.mem_reverse, List.mem_map] at hc
    obtain ⟨d, hd, hdc⟩ := hc
    exact hdc ▸ isDigitChar_digitToChar d (Nat.digits_lt_base (by norm_num) hd)

/-- `natToChars` never renders the empty string. -/
theorem natToChars_ne_nil (n : Nat) : natToChars n ≠ [] := by
  rw [natToChars_eq]
  by_cases h0 : n = 0
  · simp [h0]
  · simp [h0, Nat.digits_ne_nil_iff_ne_zero]

/-- The accumulating fold of the parser over a rendered digit list. -/
theorem chVal_aux (L : List Nat) (h : ∀ d ∈ L, d < 10) (acc : Nat) :
    List.foldl (fun a c => 10 * a + digitVal c) acc ((L.map digitToChar).reverse) =
      acc * 10 ^ L.length + Nat.ofDigits 10 L := by
  induction L generalizing acc with
  | nil => simp [Nat.ofDigits]
  | cons d ds ih =>
    have hd : d < 10 := h d (by simp)
    have hds : ∀ x ∈ ds, x < 10 := fun x hx => h x (by simp [hx])
    simp only [List.map_cons, List.reverse_cons, List.foldl_append, List.foldl_cons,
               List.foldl_nil]
    rw [ih hds, digitVal_digitToChar d hd, Nat.ofDigits_cons, List.length_cons, pow_succ]
    ring

/-- The numeric value of a rendered natural number. -/
theorem chVal_natToChars (n : Nat) : chVal (natToChars n) = n := by
  rw [natToChars_eq]
  unfold chVal
  by_cases h0 : n = 0
  · subst h0; rfl
  · simp only [h0, if_false]
    rw [chVal_aux (Nat.digits 10 n) (fun d hd => Nat.digits_lt_base (by norm_num) hd) 0]
    simp [Nat.ofDigits_digits]

/-- `parseDigits` inverts `natToChars`. -/
theorem parseDigits_natToChars (n : Nat) : parseDigits (natToChars n) = some n := by
  unfold parseDigits
  rw [if_pos, chVal_natToChars]
  rw [Bool.and_eq_true, Bool.not_eq_true', List.all_eq_true]
  constructor
  · cases hne : natToChars n with
    | nil => exact absurd hne (natToChars_ne_nil n)
    | cons c rest => rfl
  · exact natToChars_all_digits n

/-- `intToChars` never renders the empty string. -/
theorem intToChars_ne_nil (k : Int) : intToChars k ≠ [] := by
  cases k with
  | ofNat n => exact natToChars_ne_nil n
  | negSucc m => simp [intToChars]

/-- Every character of a rendered integer is a digit or the leading
minus sign. -/
theorem intToChars_chars (k : Int) :
    ∀ c ∈ intToChars k, isDigitChar c = true ∨ c = '-' := by
  cases k with
  | ofNat n => exact fun c hc => Or.inl (natToChars_all_digits n c hc)
  | negSucc m =>
    intro c hc
    rcases List.mem_cons.mp hc with hc | hc
    · exact Or.inr hc
    · exact Or.inl (natToChars_all_digits (m + 1) c hc)

/-- Rendered integers contain no whitespace. -/
theorem intToChars_no_ws (k : Int) : ∀ c ∈ intToChars k, isWSChar c = false := by
  intro c hc
  rcases intToChars_chars k c hc with h | h
  · exact digit_not_ws c h
  · subst h; rfl

/-- Rendered integers contain no pipe. -/
theorem intToChars_no_pipe (k : Int) : ∀ c ∈ intToChars k, c ≠ '|' := by
  intro c hc
  rcases intToChars_chars k c hc with h | h
  · exact digit_ne_pipe c h
  · subst h; decide

/-- Rendered integers contain no newline. -/
theorem intToChars_no_nl (k : Int) : ∀ c ∈ intToChars k, c ≠ '\n' := by
  intro c hc
  rcases intToChars_chars k c hc with h | h
  · exact digit_ne_nl c h
  · subst h; decide

/-! ### `strip` -/

/-- `dropWhile` stops immediately on a non-matching head. -/
theorem dropWhile_head_false (p : Char → Bool) (cs : Str)
    (h : ∀ c, cs.head? = some c → p c = false) : cs.dropWhile p = cs := by
  cases cs with
  | nil => rfl
  | cons a rest => simp [List.dropWhile, h a rfl]

/-- `strip` is the identity on a string whose first and last characters
are not whitespace. -/
theorem stripChars_eq_self (cs : Str)
    (h1 : ∀ c, cs.head? = some c → isWSChar c = false)
    (h2 : ∀ c, cs.getLast? = some c → isWSChar c = false) : stripChars cs = cs := by
  unfold stripChars
  rw [dropWhile_head_false isWSChar cs h1]
  rw [dropWhile_head_false isWSChar cs.reverse
        (fun c hc => h2 c (by rwa [List.head?_reverse] at hc))]
  exact List.reverse_reverse cs

/-- `strip` is the identity on a whitespace-free string. -/
theorem stripChars_of_no_ws (cs : Str) (h : ∀ c ∈ cs, isWSChar c = false) :
    stripChars cs = cs := by
  refine stripChars_eq_self cs (fun c hc => ?_) (fun c hc => ?_)
  · exact h c (by cases cs with
      | nil => simp at hc
      | cons a rest =>
        simp only [List.head?_cons, Option.some.injEq] at hc
        simp [hc])
  · obtain ⟨hne, hcl⟩ := List.mem_getLast?_eq_getLast (show c ∈ cs.getLast? by rw [hc]; rfl)
    exact h c (hcl ▸ List.getLast_mem hne)

/-! ### Integer parsing inverts integer rendering -/

/-- Parsing a rendered natural number. -/
theorem pyIntNoStrip_natToChars (n : Nat) : pyIntNoStrip (natToChars n) = some (n : Int) := by
  rcases hne : natToChars n with _ | ⟨c, rest⟩
  · exact absurd hne (natToChars_ne_nil n)
  · have hd : isDigitChar c = true := natToChars_all_digits n c (by rw [hne]; simp)
    have hb := isDigitChar_bounds c hd
    have hminus : c ≠ '-' := ne_of_toNat_ne (by have : ('-').toNat = 45 := rfl; omega)
    have hplus : c ≠ '+' := ne_of_toNat_ne (by have : ('+').toNat = 43 := rfl; omega)
    simp only [pyIntNoStrip, hminus, hplus, if_neg, if_false]
    rw [← hne, parseDigits_natToChars]
    rfl

/-- Parsing a rendered integer (`int(str(k)) == k`). -/
theorem pyIntOfChars_intToChars (k : Int) : pyIntOfChars (intToChars k) = some k := by
  unfold pyIntOfChars
  rw [stripChars_of_no_ws _ (intToChars_no_ws k)]
  cases k with
  | ofNat n => exact pyIntNoStrip_natToChars n
  | negSucc m =>
    show pyIntNoStrip ('-' :: natToChars (m + 1)) = some (Int.negSucc m)
    simp only [pyIntNoStrip, if_pos rfl]
    rw [parseDigits_natToChars]
    simp [Int.negSucc_eq]

/-- `int()` as an operation succeeds on a rendered integer. -/
theorem pyIntExc_intToChars (k : Int) : pyIntExc (intToChars k) = .ok k := by
  simp [pyIntExc, pyIntOfChars_intToChars]

/-! ### `split` -/

/-- `split` never returns the empty list. -/
theorem splitChar_ne_nil (sep : Char) : ∀ cs : Str, splitChar sep cs ≠ [] := by
  intro cs
  induction cs with
  | nil => simp [splitChar]
  | cons c rest ih =>
    rcases h : splitChar sep rest with _ | ⟨s, ss⟩
    · exact absurd h ih
    · by_cases hc : c = sep <;> simp [splitChar, h, hc]

/-- `split` on a separator-free string is that single piece. -/
theorem splitChar_no_sep (sep : Char) : ∀ cs : Str, (∀ c ∈ cs, c ≠ sep) →
    splitChar sep cs = [cs] := by
  intro cs
  induction cs with
  | nil => intro _; rfl
  | cons c rest ih =>
    intro h
    have hc : c ≠ sep := h c (by simp)
    rw [show splitChar sep (c :: rest) =
          match splitChar sep rest with
          | [] => [[]]
          | s :: ss => if c = sep then [] :: s :: ss else (c :: s) :: ss from rfl]
    rw [ih (fun x hx => h x (by simp [hx]))]
    simp [hc]

/-- `split` peels off a leading separator-free piece. -/
theorem splitChar_append (sep : Char) (a b : Str) (h : ∀ c ∈ a, c ≠ sep) :
    splitChar sep (a ++ sep :: b) = a :: splitChar sep b := by
  induction a with
  | nil =>
    simp only [List.nil_append]
    rcases hb : splitChar sep b with _ | ⟨s, ss⟩
    · exact absurd hb (splitChar_ne_nil sep b)
    · simp [splitChar, hb]
  | cons c a2 ih =>
    have hc : c ≠ sep := h c (by simp)
    have ih2 := ih (fun x hx => h x (by simp [hx]))
    simp only [List.cons_append]
    rw [show splitChar sep (c :: (a2 ++ sep :: b)) =
          match splitChar sep (a2 ++ sep :: b) with
          | [] => [[]]
          | s :: ss => if c = sep then [] :: s :: ss else (c :: s) :: ss from rfl]
    rw [ih2]
    simp [hc]

/-! ### Well-formed catalog entries and delimiter-safe fields -/

/-- A character that survives the delimited-line format: not the pipe
delimiter and not a line break. -/
def lineSafeChar (c : Char) : Bool := decide (c ≠ '|' ∧ c ≠ '\n' ∧ c ≠ '\r')

/-- A catalogued record with valid field values: id set, status one of
the two legal strings, author not all digits (what `Record` validation
accepts and cataloguing guarantees). -/
def validBook (b : Book) : Prop :=
  b.id.isSome = true ∧ (b.status = some STATUS_YES ∨ b.status = some STATUS_NO) ∧
  strIsDigit b.author = false

/-- Title and author contain neither the pipe delimiter nor line
breaks. -/
def textSafeBook (b : Book) : Prop :=
  (∀ c ∈ b.title, lineSafeChar c = true) ∧ (∀ c ∈ b.author, lineSafeChar c = true)

instance (b : Book) : Decidable (validBook b) := by
  unfold validBook
  infer_instance

instance (b : Book) : Decidable (textSafeBook b) := by
  unfold textSafeBook
  infer_instance

/-- The status strings contain no pipe. -/
theorem status_no_pipe :
    (∀ c ∈ STATUS_YES, c ≠ '|') ∧ (∀ c ∈ STATUS_NO, c ≠ '|') := by decide

/-- The status strings contain no newline. -/
theorem status_no_nl :
    (∀ c ∈ STATUS_YES, c ≠ '\n') ∧ (∀ c ∈ STATUS_NO, c ≠ '\n') := by decide

/-! ### `readlines` of the saved content -/

/-- Splitting the newline-joined lines recovers them (plus the final
empty piece after the trailing newline). -/
theorem splitChar_joinLines : ∀ ls : List Str, (∀ l ∈ ls, ∀ c ∈ l, c ≠ '\n') →
    splitChar '\n' (joinLines ls) = ls ++ [[]] := by
  intro ls
  induction ls with
  | nil => intro _; rfl
  | cons l ls2 ih =>
    intro h
    show splitChar '\n' (l ++ '\n' :: joinLines ls2) = (l :: ls2) ++ [[]]
    rw [splitChar_append '\n' l _ (h l (by simp)), ih (fun x hx => h x (by simp [hx]))]
    rfl

/-- `readlines` of a first line followed by newline-terminated lines. -/
theorem pyReadlines_content (l0 : Str) (ls : List Str)
    (h0 : ∀ c ∈ l0, c ≠ '\n') (h : ∀ l ∈ ls, ∀ c ∈ l, c ≠ '\n') :
    pyReadlines (l0 ++ '\n' :: joinLines ls) = l0 :: ls := by
  unfold pyReadlines dropTrailingEmpty
  rw [splitChar_append '\n' l0 _ h0, splitChar_joinLines ls h]
  rw [show l0 :: (ls ++ [[]]) = (l0 :: ls) ++ [([] : Str)] by simp]
  rw [List.getLast?_concat]
  show ((l0 :: ls) ++ [([] : Str)]).dropLast = l0 :: ls
  have hdl : ∀ ys : List Str, (ys ++ [[]]).dropLast = ys := fun ys => by simp
  simpa using hdl (l0 :: ls)

/-! ### Parsing a saved book line -/

/-- The saved line in fully right-nested form. -/
theorem toLine_decomp (b : Book) (i : Int) (s : Str)
    (hid : b.id = some i) (hst : b.status = some s) :
    b.toLine = intToChars i ++ '|' :: (b.title ++ '|' :: (b.author ++ '|' ::
      (intToChars b.year ++ '|' :: s))) := by
  simp [Book.toLine, pyShowOptInt, pyShowOptStr, hid, hst]

/-- Stripping a saved line is the identity: it starts with a digit or
minus sign and ends with the last status character. -/
theorem stripChars_toLine (b : Book) (i : Int) (s : Str)
    (hid : b.id = some i) (hst : b.status = some s)
    (hslast : ∃ ini cl, s = ini ++ [cl] ∧ isWSChar cl = false) :
    stripChars b.toLine = b.toLine := by
  obtain ⟨ini, cl, hs, hcl⟩ := hslast
  apply stripChars_eq_self
  · intro c hc
    rw [toLine_decomp b i s hid hst] at hc
    obtain ⟨c0, ri, hI⟩ := List.exists_cons_of_ne_nil (intToChars_ne_nil i)
    rw [hI] at hc
    simp only [List.cons_append, List.head?_cons, Option.some.injEq] at hc
    obtain rfl := hc
    exact intToChars_no_ws i c0 (by rw [hI]; simp)
  · intro c hc
    rw [toLine_decomp b i s hid hst, hs] at hc
    rw [show intToChars i ++ '|' :: (b.title ++ '|' :: (b.author ++ '|' ::
          (intToChars b.year ++ '|' :: (ini ++ [cl])))) =
        (intToChars i ++ '|' :: (b.title ++ '|' :: (b.author ++ '|' ::
          (intToChars b.year ++ '|' :: ini)))) ++ [cl] by simp] at hc
    rw [List.getLast?_concat] at hc
    obtain rfl : cl = c := by simpa using hc
    exact hcl

/-- Splitting a saved line at pipes yields exactly the five fields, when
title, author and status are pipe-free. -/
theorem splitChar_toLine (b : Book) (i : Int) (s : Str)
    (hid : b.id = some i) (hst : b.status = some s)
    (htitle : ∀ c ∈ b.title, c ≠ '|') (hauthor : ∀ c ∈ b.author, c ≠ '|')
    (hstat : ∀ c ∈ s, c ≠ '|') :
    splitChar '|' b.toLine = [intToChars i, b.title, b.author, intToChars b.year, s] := by
  rw [toLine_decomp b i s hid hst]
  rw [splitChar_append '|' _ _ (intToChars_no_pipe i)]
  rw [splitChar_append '|' _ _ htitle]
  rw [splitChar_append '|' _ _ hauthor]
  rw [splitChar_append '|' _ _ (intToChars_no_pipe b.year)]
  rw [splitChar_no_sep '|' s hstat]

/-- Re-parsing a saved line of a valid, delimiter-safe book recovers the
book exactly. -/
theorem parseBookLine_toLine (b : Book) (hv : validBook b) (hs : textSafeBook b) :
    parseBookLine b.toLine = .ok b := by
  obtain ⟨hid0, hstat, hnd⟩ := hv
  obtain ⟨i, hi⟩ := Option.isSome_iff_exists.mp hid0
  have hstat2 : ∃ s, b.status = some s ∧ (s = STATUS_YES ∨ s = STATUS_NO) := by
    rcases hstat with h | h
    · exact ⟨STATUS_YES, h, Or.inl rfl⟩
    · exact ⟨STATUS_NO, h, Or.inr rfl⟩
  obtain ⟨s, hsEq, hsOr⟩ := hstat2
  have hsPipe : ∀ c ∈ s, c ≠ '|' := by
    rcases hsOr with rfl | rfl
    · exact status_no_pipe.1
    · exact status_no_pipe.2
  have hsShape : ∃ ini cl, s = ini ++ [cl] ∧ isWSChar cl = false := by
    rcases hsOr with rfl | rfl
    · exact ⟨"в наличи".data, 'и', by decide, by decide⟩
    · exact ⟨"выдан".data, 'а', by decide, by decide⟩
  obtain ⟨ht, ha⟩ := hs
  have htp : ∀ c ∈ b.title, c ≠ '|' := fun c hc => (of_decide_eq_true (ht c hc)).1
  have hap : ∀ c ∈ b.author, c ≠ '|' := fun c hc => (of_decide_eq_true (ha c hc)).1
  unfold parseBookLine
  rw [stripChars_toLine b i s hi hsEq hsShape,
      splitChar_toLine b i s hi hsEq htp hap hsPipe]
  simp only [pyIndex, List.get?, pyIntExc_intToChars, hnd, Bool.false_eq_true, if_false,
             if_pos hsOr]
  rw [← hi, ← hsEq]

/-- A saved line of a valid, delimiter-safe book contains no newline. -/
theorem toLine_no_nl (b : Book) (hv : validBook b) (hs : textSafeBook b) :
    ∀ c ∈ b.toLine, c ≠ '\n' := by
  obtain ⟨hid0, hstat, -⟩ := hv
  obtain ⟨i, hi⟩ := Option.isSome_iff_exists.mp hid0
  have hstat2 : ∃ s, b.status = some s ∧ (s = STATUS_YES ∨ s = STATUS_NO) := by
    rcases hstat with h | h
    · exact ⟨STATUS_YES, h, Or.inl rfl⟩
    · exact ⟨STATUS_NO, h, Or.inr rfl⟩
  obtain ⟨s, hsEq, hsOr⟩ := hstat2
  have hsNl : ∀ c ∈ s, c ≠ '\n' := by
    rcases hsOr with rfl | rfl
    · exact status_no_nl.1
    · exact status_no_nl.2
  obtain ⟨ht, ha⟩ := hs
  intro c hc
  rw [toLine_decomp b i s hi hsEq] at hc
  simp only [List.mem_append, List.mem_cons] at hc
  rcases hc with hc | rfl | hc | rfl | hc | rfl | hc | rfl | hc
  · exact intToChars_no_nl i c hc
  · decide
  · exact (of_decide_eq_true (ht c hc)).2.1
  · decide
  · exact (of_decide_eq_true (ha c hc)).2.1
  · decide
  · exact intToChars_no_nl b.year c hc
  · decide
  · exact hsNl c hc

/-- Replaying the book-loading loop over the saved lines of valid,
delimiter-safe books appends exactly those books. -/
theorem loadBooksAux_map (nid : Int) :
    ∀ (books acc : List Book), (∀ b ∈ books, validBook b ∧ textSafeBook b) →
      loadBooksAux nid acc (books.map Book.toLine) =
        .ok { books := acc ++ books, next_id := nid } := by
  intro books
  induction books with
  | nil => intro acc _; simp [loadBooksAux]
  | cons b rest ih =>
    intro acc h
    obtain ⟨hv, hs⟩ := h b (by simp)
    simp only [List.map_cons, loadBooksAux, parseBookLine_toLine b hv hs]
    rw [ih (acc ++ [b]) (fun x hx => h x (by simp [hx]))]
    simp

/-- The delimited-format round trip: loading the saved content of a
catalog of valid, delimiter-safe books fully replaces any prior state
with the original catalog. -/
theorem load_save_text (lib0 lib : Library)
    (h : ∀ b ∈ lib.books, validBook b ∧ textSafeBook b) :
    lib0.load_from_text lib.save_to_text_content = .ok lib := by
  have hnl : ∀ l ∈ lib.books.map Book.toLine, ∀ c ∈ l, c ≠ '\n' := by
    intro l hl
    obtain ⟨b, hb, rfl⟩ := List.mem_map.mp hl
    exact toLine_no_nl b (h b hb).1 (h b hb).2
  unfold Library.save_to_text_content Library.load_from_text
  rw [pyReadlines_content _ _ (intToChars_no_nl lib.next_id) hnl]
  show (match pyIntExc (stripChars (intToChars lib.next_id)) with
        | Except.error e => Except.error (e, lib0)
        | Except.ok nid => loadBooksAux nid [] (lib.books.map Book.toLine)) = Except.ok lib
  rw [stripChars_of_no_ws _ (intToChars_no_ws lib.next_id),
      pyIntExc_intToChars lib.next_id]
  show loadBooksAux lib.next_id [] (lib.books.map Book.toLine) = Except.ok lib
  rw [loadBooksAux_map lib.next_id lib.books [] h]
  rfl

/-! ### The JSON round trip -/

/-- `to_dict` lookup of `title`. -/
theorem dictGet_to_dict_title (b : Book) :
    dictGet b.to_dict "title".data = .ok (.vStr b.title) := rfl

/-- `to_dict` lookup of `author`. -/
theorem dictGet_to_dict_author (b : Book) :
    dictGet b.to_dict "author".data = .ok (.vStr b.author) := rfl

/-- `to_dict` lookup of `year`. -/
theorem dictGet_to_dict_year (b : Book) :
    dictGet b.to_dict "year".data = .ok (.vInt b.year) := rfl

/-- `to_dict` lookup of `id`. -/
theorem dictGet_to_dict_id (b : Book) :
    dictGet b.to_dict "id".data = .ok (optIntVal b.id) := rfl

/-- `to_dict` lookup of `status`. -/
theorem dictGet_to_dict_status (b : Book) :
    dictGet b.to_dict "status".data = .ok (optStrVal b.status) := rfl

/-- Saved-catalog lookup of `next_id`. -/
theorem dictGet_save_next_id (lib : Library) :
    dictGet lib.save_to_json "next_id".data = .ok (.vInt lib.next_id) := rfl

/-- Saved-catalog lookup of `books`. -/
theorem dictGet_save_books (lib : Library) :
    dictGet lib.save_to_json "books".data = .ok (.vList (lib.books.map Book.to_dict)) := rfl

/-- `from_dict` inverts `to_dict` on a valid catalogued book. -/
theorem from_dict_to_dict (b : Book) (hv : validBook b) :
    Book.from_dict b.to_dict = .ok b := by
  obtain ⟨hid0, hstat, hnd⟩ := hv
  obtain ⟨i, hi⟩ := Option.isSome_iff_exists.mp hid0
  have hstat2 : ∃ s, b.status = some s ∧ (s = STATUS_YES ∨ s = STATUS_NO) := by
    rcases hstat with h | h
    · exact ⟨STATUS_YES, h, Or.inl rfl⟩
    · exact ⟨STATUS_NO, h, Or.inr rfl⟩
  obtain ⟨s, hsEq, hsOr⟩ := hstat2
  have hcon : Book.construct (.vStr b.title) (.vStr b.author) (.vInt b.year) =
      .ok { title := b.title, author := b.author, year := b.year,
            id := none, status := none } := by
    simp [Book.construct, hnd, pyAsInt]
  have hset : setStatusVal (.vStr s) = .ok (some s) := by
    simp [setStatusVal, hsOr]
  have g1 : dictGet b.to_dict ['t', 'i', 't', 'l', 'e'] = Except.ok (PyVal.vStr b.title) := rfl
  have g2 : dictGet b.to_dict ['a', 'u', 't', 'h', 'o', 'r'] =
      Except.ok (PyVal.vStr b.author) := rfl
  have g3 : dictGet b.to_dict ['y', 'e', 'a', 'r'] = Except.ok (PyVal.vInt b.year) := rfl
  have g4 : dictGet b.to_dict ['i', 'd'] = Except.ok (optIntVal b.id) := rfl
  have g5 : dictGet b.to_dict ['s', 't', 'a', 't', 'u', 's'] =
      Except.ok (optStrVal b.status) := rfl
  simp only [Book.from_dict, g1, g2, g3, g4, g5,
             hcon, hi, hsEq, optIntVal, optStrVal, setIdVal, hset]
  rw [← hi, ← hsEq]

/-- Rebuilding the book list from the saved dictionaries recovers it. -/
theorem booksFromDicts_map (books : List Book) (h : ∀ b ∈ books, validBook b) :
    booksFromDicts (books.map Book.to_dict) = .ok books := by
  induction books with
  | nil => rfl
  | cons b rest ih =>
    simp only [List.map_cons, booksFromDicts, from_dict_to_dict b (h b (by simp)),
               ih (fun x hx => h x (by simp [hx]))]

/-- The JSON round trip: loading the saved value of a catalog of valid
books fully replaces any prior state with the original catalog. -/
theorem load_save_json (lib0 lib : Library) (h : ∀ b ∈ lib.books, validBook b) :
    lib0.load_from_json lib.save_to_json = .ok lib := by
  have g1 : dictGet lib.save_to_json ['n', 'e', 'x', 't', '_', 'i', 'd'] =
      Except.ok (PyVal.vInt lib.next_id) := rfl
  have g2 : dictGet lib.save_to_json ['b', 'o', 'o', 'k', 's'] =
      Except.ok (PyVal.vList (lib.books.map Book.to_dict)) := rfl
  simp only [Library.load_from_json, g1, g2, pyAsInt, booksFromDicts_map lib.books h]

/-- C2 counterexample: the delimited format does not escape pipes, so a
catalog whose title contains `|` (a valid field value) does not survive
`deserialize(serialize(catalog))` — the reload fails instead of
returning the catalog.  This refutes the round trip as universally
stated over all valid field values. -/
theorem claim_C2_pipe_counterexample :
    Library.load_from_text
        (Library.mk [{ title := "a|b".data, author := "x".data, year := 2000,
                       id := some 1, status := some STATUS_YES }] 2)
        (Library.save_to_text_content
          (Library.mk [{ title := "a|b".data, author := "x".data, year := 2000,
                         id := some 1, status := some STATUS_YES }] 2)) ≠
      .ok (Library.mk [{ title := "a|b".data, author := "x".data, year := 2000,
                         id := some 1, status := some STATUS_YES }] 2) := by
  decide

/-- C2, amended: for every catalog of valid catalogued records,
`deserialize(serialize(catalog))` — applied over any prior state —
returns exactly the original catalog (same ids, titles, authors, years,
statuses, order, and `next_id`) for the JSON format; for the delimited
format the same holds provided titles and authors contain neither the
`|` delimiter nor line breaks (the format has no escaping). -/
theorem claim_C2_roundtrip :
    (∀ lib0 lib : Library, (∀ b ∈ lib.books, validBook b) →
        lib0.load_from_json lib.save_to_json = .ok lib) ∧
    (∀ lib0 lib : Library, (∀ b ∈ lib.books, validBook b ∧ textSafeBook b) →
        lib0.load_from_text lib.save_to_text_content = .ok lib) :=
  ⟨load_save_json, load_save_text⟩

/-- C2 witness: both round trips at a concrete two-book catalog. -/
theorem claim_C2_witness :
    Library.load_from_json Library.init
        (Library.save_to_json
          (Library.mk [{ title := "Dune".data, author := "F H".data, year := 1965,
                         id := some 1, status := some STATUS_YES },
                       { title := "Foundation".data, author := "I A".data, year := 1951,
                         id := some 2, status := some STATUS_NO }] 3)) =
      .ok (Library.mk [{ title := "Dune".data, author := "F H".data, year := 1965,
                         id := some 1, status := some STATUS_YES },
                       { title := "Foundation".data, author := "I A".data, year := 1951,
                         id := some 2, status := some STATUS_NO }] 3) ∧
    Library.load_from_text Library.init
        (Library.save_to_text_content
          (Library.mk [{ title := "Dune".data, author := "F H".data, year := 1965,
                         id := some 1, status := some STATUS_YES },
                       { title := "Foundation".data, author := "I A".data, year := 1951,
                         id := some 2, status := some STATUS_NO }] 3)) =
      .ok (Library.mk [{ title := "Dune".data, author := "F H".data, year := 1965,
                         id := some 1, status := some STATUS_YES },
                       { title := "Foundation".data, author := "I A".data, year := 1951,
                         id := some 2, status := some STATUS_NO }] 3) :=
  ⟨claim_C2_roundtrip.1 Library.init _ (by decide),
   claim_C2_roundtrip.2 Library.init _ (by decide)⟩

/-! ### Claim C6 -/

/-- A caller-level catalog mutation: an add (with its raw field values)
or a removal by id. -/
inductive LibOp where
  | opAdd (t a : Str) (y : Int)
  | opRemove (i : Int)

/-- The adds of a run pass validation (author not all digits), so each
one succeeds — the claim quantifies over successful adds. -/
def opOk : LibOp → Bool
  | .opAdd _ a _ => !strIsDigit a
  | .opRemove _ => true

/-- Number of add operations in a run. -/
def countAdds : List LibOp → Nat
  | [] => 0
  | .opAdd _ _ _ :: r => countAdds r + 1
  | .opRemove _ :: r => countAdds r

/-- The `n` consecutive integers starting at `s`. -/
def intRange : Int → Nat → List Int
  | _, 0 => []
  | s, n + 1 => s :: intRange (s + 1) n

/-- Run a sequence of operations from a state, recording the id of each
record a successful `add_book` returns, in order. -/
def runOps : Library → List LibOp → Library × List Int
  | lib, [] => (lib, [])
  | lib, .opAdd t a y :: rest =>
      match Library.add_book lib (.vStr t) (.vStr a) (.vInt y) with
      | .ok (lib2, b) =>
          let r := runOps lib2 rest
          (r.1, b.id.getD 0 :: r.2)
      | .error _ => runOps lib rest
  | lib, .opRemove i :: rest => runOps (Library.remove_book lib i).1 rest

/-- The ids issued by a run are the consecutive integers from the
starting `next_id`: removals never disturb the counter. -/
theorem runOps_ids (ops : List LibOp) :
    ∀ lib : Library, (∀ op ∈ ops, opOk op = true) →
      (runOps lib ops).2 = intRange lib.next_id (countAdds ops) := by
  induction ops with
  | nil => intro lib _; rfl
  | cons op rest ih =>
    intro lib h
    cases op with
    | opAdd t a y =>
      have ha : strIsDigit a = false := by
        have := h (LibOp.opAdd t a y) (by simp)
        simpa [opOk] using this
      simp only [runOps, add_book_ok lib t a y ha, countAdds]
      rw [ih _ (fun x hx => h x (by simp [hx]))]
      simp [intRange]
    | opRemove i =>
      simp only [runOps, countAdds]
      rw [ih _ (fun x hx => h x (by simp [hx]))]
      rfl

/-- Every element of `intRange s n` is at least `s`. -/
theorem intRange_mem (n : Nat) : ∀ s x : Int, x ∈ intRange s n → s ≤ x := by
  induction n with
  | zero => intro s x hx; simp [intRange] at hx
  | succ n ih =>
    intro s x hx
    rcases List.mem_cons.mp hx with rfl | hx
    · exact le_refl x
    · have := ih (s + 1) x hx
      omega

/-- `intRange` is strictly increasing. -/
theorem intRange_pairwise (n : Nat) : ∀ s : Int, (intRange s n).Pairwise (· < ·) := by
  induction n with
  | zero => intro s; exact List.Pairwise.nil
  | succ n ih =>
    intro s
    refine List.Pairwise.cons ?_ (ih (s + 1))
    intro x hx
    have := intRange_mem n (s + 1) x hx
    omega

/-- C6: starting from the empty catalog, any sequence of successful adds
interleaved with arbitrary removes issues exactly the ids `1, 2, …, N`
(`N` the number of adds) in order — pairwise distinct, strictly
increasing, starting at 1; in particular no add returns an id issued
before, including ids of since-removed records. -/
theorem claim_C6_ids (ops : List LibOp) (h : ∀ op ∈ ops, opOk op = true) :
    (runOps Library.init ops).2 = intRange 1 (countAdds ops) ∧
    (runOps Library.init ops).2.Pairwise (· < ·) := by
  have h1 := runOps_ids ops Library.init h
  refine ⟨h1, ?_⟩
  rw [h1]
  exact intRange_pairwise (countAdds ops) 1

/-- C6 witness: add, remove the issued id, add again — the ids are
`[1, 2]`, so the removed id 1 is not reissued. -/
theorem claim_C6_witness :
    (runOps Library.init
        [.opAdd "a".data "x".data 1, .opRemove 1, .opAdd "b".data "y".data 2]).2 =
      intRange 1 2 ∧
    (runOps Library.init
        [.opAdd "a".data "x".data 1, .opRemove 1, .opAdd "b".data "y".data 2]).2.Pairwise
      (· < ·) :=
  claim_C6_ids [.opAdd "a".data "x".data 1, .opRemove 1, .opAdd "b".data "y".data 2]
    (by decide)
